import Mathlib

/-!
Shallow embedding of `src/include/namegen/namegen.hpp` (Galfurian/namegen).

The C++ core is a single-pass character processor (`detail::process_character`)
driven by `generate`, with a per-call mutable state `detail::option_t`
threaded by reference.  Here the state is passed explicitly and the two
in-out parameters (`options`, `buffer`) become explicit results.

The only piece of behaviour not in the repository's sources is the random
engine (`std::default_random_engine` / `std::uniform_int_distribution` from
the C++ standard library, used inside `detail::get_rand`).  Following the
spec's Random Source contract it is modelled as an explicit parameter
`rand : RandFun`, a pure function of the seed that returns the drawn value
and the successor seed; `RandValid` captures the contract that a draw over
`[lo, hi]` lands in `[lo, hi]`.  A concrete instance `default_rand` is
provided for closed evaluations.

`process_character` recurses when a `>` closes a group: the chosen
alternative is re-processed character by character.  The embedding makes
that recursion structural on a fuel argument; `generate` runs with fuel 2,
and the totality theorem below shows fuel 2 is never exhausted (collected
alternatives never contain structural characters, so the re-processing
never recurses further), matching the C++ code, whose recursion depth is
bounded the same way.
-/

namespace namegen

/-- Seed-passing random draw: `rand seed lo hi = (value, nextSeed)`,
mirroring `detail::get_rand(seed, min, max)` which both returns a value and
overwrites `seed`. -/
def RandFun : Type := Nat → Nat → Nat → Nat × Nat

/-- Modelled from the spec: the Random Source contract (§4.2) for the C++
standard library engine that `detail::get_rand` wraps (not part of this
repository's sources): a draw over the inclusive range `[lo, hi]` returns a
value inside that range. -/
def RandValid (rand : RandFun) : Prop :=
  ∀ s lo hi, lo ≤ hi → lo ≤ (rand s lo hi).1 ∧ (rand s lo hi).1 ≤ hi

/-- Modelled from the spec: a concrete deterministic Random Source instance
(a linear congruential mixer), used to evaluate the embedding on closed
inputs.  Any `RandValid` function works for the parametric theorems. -/
def default_rand : RandFun := fun s lo hi =>
  let s2 := (s * 1103515245 + 12345) % 2147483648
  (lo + s2 % (hi - lo + 1), s2)

/-- `detail::option_t`: the state threaded through processing. -/
structure option_t where
  capitalize : Bool := false
  emit_literal : Bool := false
  inside_group : Bool := false
  seed : Nat := 0
  current_option : String := ""
  options : List String := []
deriving DecidableEq, Repr

/-- `detail::get_tokens`: the built-in token table. -/
def get_tokens (key : Char) : List String :=
  if key = 's' then
    ["ach", "ack", "ad", "age", "ald", "ale", "an", "ang", "ar", "ard", "as", "ash", "at",
     "ath", "augh", "aw", "ban", "bel", "bur", "cer", "cha", "che", "dan", "dar", "del", "den",
     "dra", "dyn", "ech", "eld", "elm", "em", "en", "end", "eng", "enth", "er", "ess", "est",
     "et", "gar", "gha", "hat", "hin", "hon", "ia", "ight", "ild", "im", "ina", "ine", "ing",
     "ir", "is", "iss", "it", "kal", "kel", "kim", "kin", "ler", "lor", "lye", "mor", "mos",
     "nal", "ny", "nys", "old", "om", "on", "or", "orm", "os", "ough", "per", "pol", "qua",
     "que", "rad", "rak", "ran", "ray", "ril", "ris", "rod", "roth", "ryn", "sam", "say", "ser",
     "shy", "skel", "sul", "tai", "tan", "tas", "ther", "tia", "tin", "ton", "tor", "tur", "um",
     "und", "unt", "urn", "usk", "ust", "ver", "ves", "vor", "war", "wor", "yer"]
  else if key = 'v' then
    ["a", "e", "i", "o", "u", "y"]
  else if key = 'V' then
    ["a", "e", "i", "o", "u", "y", "ae", "ai", "au", "ay", "ea",
     "ee", "ei", "eu", "ey", "ia", "ie", "oe", "oi", "oo", "ou", "ui"]
  else if key = 'c' then
    ["b", "c", "d", "f", "g", "h", "j", "k", "l", "m", "n", "p", "q", "r", "s", "t", "v", "w",
     "x", "y", "z"]
  else if key = 'B' then
    ["b", "bl", "br", "c", "ch", "chr", "cl", "cr", "d", "dr", "f", "g", "h", "j", "k",
     "l", "ll", "m", "n", "p", "ph", "qu", "r", "rh", "s", "sch", "sh", "sl", "sm", "sn",
     "st", "str", "sw", "t", "th", "thr", "tr", "v", "w", "wh", "y", "z", "zh"]
  else if key = 'C' then
    ["b", "c", "ch", "ck", "d", "f", "g", "gh", "h", "k", "l", "ld", "ll", "lt", "m", "n",
     "nd", "nn", "nt", "p", "ph", "q", "r", "rd", "rr", "rt", "s", "sh", "ss", "st", "t",
     "th", "v", "w", "y", "z"]
  else if key = 'i' then
    ["air", "ankle", "ball", "beef", "bone", "bum", "bumble", "bump", "cheese", "clod",
     "clot", "clown", "corn", "dip", "dolt", "doof", "dork", "dumb", "face", "finger",
     "foot", "fumble", "goof", "grumble", "head", "knock", "knocker", "knuckle", "loaf",
     "lump", "lunk", "meat", "muck", "munch", "nit", "numb", "pin", "puff", "skull",
     "snark", "sneeze", "thimble", "twerp", "twit", "wad", "wimp", "wipe"]
  else if key = 'm' then
    ["baby", "booble", "bunker", "cuddle", "cuddly", "cutie", "doodle", "foofie", "gooble",
     "honey", "kissie", "lover", "lovey", "moofie", "mooglie", "moopie", "moopsie", "nookum",
     "poochie", "poof", "poofie", "pookie", "schmoopie", "schnoogle", "schnookie",
     "schnookum", "smooch", "smoochie", "smoosh", "snoogle", "snoogy", "snookie", "snookum",
     "snuggy", "sweetie", "woogle", "woogy", "wookie", "wookum", "wuddle", "wuddly",
     "wuggy", "wunny"]
  else if key = 'M' then
    ["boo", "bunch", "bunny", "cake", "cakes", "cute", "darling", "dumpling",
     "dumplings", "face", "foof", "goo", "head", "kin", "kins", "lips",
     "love", "mush", "pie", "poo", "pooh", "pook", "pums"]
  else if key = 'D' then
    ["b", "bl", "br", "cl", "d", "f", "fl", "fr", "g", "gh", "gl",
     "gr", "h", "j", "k", "kl", "m", "n", "p", "th", "w"]
  else if key = 'd' then
    ["elch", "idiot", "ob", "og", "ok", "olph", "olt", "omph", "ong", "onk", "oo", "oob",
     "oof", "oog", "ook", "ooz", "org", "ork", "orm", "oron", "ub", "uck", "ug", "ulf",
     "ult", "um", "umb", "ump", "umph", "un", "unb", "ung", "unk", "unph", "unt", "uzz"]
  else if key = 't' then
    ["Master of", "Ruler of", "Teacher of", "Betrayer of", "Warden of", "Protector of",
     "Conqueror of", "King of", "Queen of", "Champion of", "Overlord of", "Defender of",
     "Seeker of", "Harbinger of", "Invoker of", "Shaper of", "Bearer of", "Savior of",
     "Keeper of", "Lord of", "Lady of", "Scholar of", "Lord Protector of", "Bringer of",
     "Emissary of", "Voice of", "Commander of", "Herald of", "Foe of", "Enlightener of",
     "Guardian of", "Scribe of", "Disruptor of", "Architect of", "Wanderer of", "Knight of",
     "Vanguard of", "Reaper of", "Adviser of", "Slayer of", "Hunter of", "Scribe of",
     "Guide of", "Throne of", "Archmage of", "Mystic of", "Scribe of", "Watcher of",
     "Curse of", "Revenge of", "Crown of", "Breaker of", "Lord of the Shadows",
     "Maestro of", "Illuminator of", "Tamer of", "Harvester of", "Bringer of the Dawn",
     "Wielder of", "Mastermind of", "Chronicler of", "Mentor of"]
  else if key = 'T' then
    ["the Endless", "the Sea", "the Fiery Pit", "the Deep", "the Forsaken",
     "the Fallen", "the Immortal", "the Forgotten", "the Abyss", "the Eternal Flame",
     "the Storm", "the Unseen", "the Boundless", "the Savage", "the Unyielding",
     "the Wilds", "the First", "the Cursed", "the Heavens", "the Shadows",
     "the Eternal Night", "the Darkened", "the Wanderer", "the Unknown", "the Crowned",
     "the Iron Fist", "the Moon", "the Ashen", "the Silent", "the Wanderer",
     "the Unforgiven", "the Alchemist", "the Lost", "the Eternal Watch", "the Glorious",
     "the Red Hand", "the Sky", "the Crucible", "the Flame", "the Ancient",
     "the Heralded", "the Stormbringer", "the Dread", "the Shattered", "the Merciless",
     "the Void", "the Conquered", "the Broken", "the Chosen", "the Unchained",
     "the Hunter", "the Dying", "the Radiant", "the Last", "the Hidden",
     "the Seeker", "the Vanquished", "the Blighted", "the Outcast", "the Sacred",
     "the Voidbringer", "the Vengeful", "the Unshakable", "the Phoenix", "the Blessed",
     "the Valiant", "the Reborn", "the Reckoning"]
  else []

/-- `detail::pick_random_element`: draw an index in `[0, tokens.size() - 1]`
and index the list (the C++ indexing is in range whenever the draw is). -/
def pick_random_element (rand : RandFun) (seed : Nat) (tokens : List String) :
    String × Nat :=
  let r := rand seed 0 (tokens.length - 1)
  (tokens.getD r.1 "", r.2)

/-- `detail::capitalize_and_clear`: upper-case the character and clear the
flag when the flag is set. -/
def capitalize_and_clear (character : Char) (capitalize : Bool) : Char × Bool :=
  if capitalize then (character.toUpper, false) else (character, capitalize)

/-- `detail::process_token`: result is `(status, options, buffer)`; status
`false` is the C++ `return 0` (picked token empty). -/
def process_token (rand : RandFun) (options : option_t) (buffer : String)
    (key : Char) : Bool × option_t × String :=
  let tokens := get_tokens key
  if tokens.isEmpty then
    let r := capitalize_and_clear key options.capitalize
    (true, { options with capitalize := r.2 }, buffer.push r.1)
  else
    let pick := pick_random_element rand options.seed tokens
    let o1 := { options with seed := pick.2 }
    match pick.1.data with
    | [] => (false, o1, buffer)
    | c :: rest =>
      let r := capitalize_and_clear c o1.capitalize
      (true, { o1 with capitalize := r.2 }, buffer.push r.1 ++ String.mk rest)

/-- Outcome of `detail::process_character`: `ok` carries the updated state
and buffer (C++ `return 1`), `err` is C++ `return 0`, and `nofuel` marks
exhaustion of the fuel that makes the `>`-recursion structural (shown
unreachable below). -/
inductive PRes where
  | ok (options : option_t) (buffer : String) : PRes
  | err : PRes
  | nofuel : PRes
deriving DecidableEq, Repr

/-- The `for (const auto &token : selected_option)` loop inside the `>`
case: run a one-character step over a list, stopping on failure. -/
def runChars (step : option_t → String → Char → PRes) :
    option_t → String → List Char → PRes
  | o, buf, [] => PRes.ok o buf
  | o, buf, c :: cs =>
    match step o buf c with
    | PRes.ok o2 buf2 => runChars step o2 buf2 cs
    | r => r

/-- `detail::process_character`: the switch over one pattern character.
The `>` case re-processes the chosen alternative through the same
function, at one fuel less. -/
def process_character (rand : RandFun) : Nat → option_t → String → Char → PRes
  | 0 => fun _ _ _ => PRes.nofuel
  | fuel + 1 => fun o buf c =>
    if c = '(' then
      PRes.ok (if o.inside_group then o else { o with emit_literal := true }) buf
    else if c = ')' then
      PRes.ok (if o.inside_group then o else { o with emit_literal := false }) buf
    else if c = '<' then
      PRes.ok { o with inside_group := true, options := [], current_option := "" } buf
    else if c = '|' then
      PRes.ok { o with options := o.options ++ [o.current_option],
                       current_option := "" } buf
    else if c = '>' then
      let o1 := { o with inside_group := false,
                         options := o.options ++ [o.current_option],
                         current_option := "" }
      if o1.options.isEmpty then PRes.err
      else
        let r := rand o1.seed 0 (o1.options.length - 1)
        let selected := o1.options.getD r.1 ""
        let o2 := { o1 with seed := r.2 }
        match runChars (process_character rand fuel) o2 buf selected.data with
        | PRes.ok o3 buf3 => PRes.ok { o3 with options := [] } buf3
        | r2 => r2
    else if c = '!' then
      PRes.ok { o with capitalize := true } buf
    else if o.inside_group then
      PRes.ok { o with current_option := o.current_option.push c } buf
    else if o.emit_literal then
      let r := capitalize_and_clear c o.capitalize
      PRes.ok { o with capitalize := r.2 } (buf.push r.1)
    else
      let r := process_token rand o buf c
      PRes.ok r.2.1 r.2.2

/-- The loop body of `generate`: on failure the buffer is cleared and the
scan stops. -/
def generateAux (rand : RandFun) (fuel : Nat) :
    option_t → String → List Char → Option String
  | _, buf, [] => some buf
  | o, buf, c :: cs =>
    match process_character rand fuel o buf c with
    | PRes.ok o2 buf2 => generateAux rand fuel o2 buf2 cs
    | PRes.err => some ""
    | PRes.nofuel => none

/-- `namegen::generate(pattern, seed)`.  Fuel 2 suffices for every input
(totality theorem below), because chosen alternatives never contain
structural characters, so the `>`-recursion is at most one level deep. -/
def generate (rand : RandFun) (pattern : String) (seed : Nat) : Option String :=
  generateAux rand 2 { seed := seed } "" pattern.data

/-- A character the switch in `process_character` sends to its `default`
arm (not one of the six structural characters). -/
def plain (c : Char) : Bool :=
  !(c = '(' || c = ')' || c = '<' || c = '|' || c = '>' || c = '!')

/-- A string all of whose characters are plain. -/
def plainStr (s : String) : Bool := s.data.all plain

/-- Invariant of reachable states: every collected alternative, and the
alternative under construction, consist of plain characters only. -/
def OptInv (o : option_t) : Prop :=
  (∀ s ∈ o.options, plainStr s = true) ∧ plainStr o.current_option = true

/-- A string whose first character upper-cases to an upper-case letter
(used for the syllable table). -/
def upperOk (t : String) : Bool :=
  match t.data with
  | [] => false
  | c :: _ => (c.toUpper).isUpper

/-- The pattern of `d` nested `<`, then `a`, then `d` closing `>`. -/
def nestPattern (d : Nat) : String :=
  String.mk (List.replicate d '<' ++ 'a' :: List.replicate d '>')

/-- Transliteration of claim C3: some fixed nesting cap exists beyond which
nested patterns no longer produce their normal output (the code would
instead report `TooDeep`). -/
def c3_claim : Prop :=
  ∃ cap : Nat, ∀ d s : Nat, d > cap →
    generate default_rand (nestPattern d) s ≠ some "a"

theorem data_empty : ("" : String).data = [] := rfl

theorem getD_empty_one (i : Nat) : List.getD [("" : String)] i "" = "" := by
  cases i <;> simp [List.getD]

theorem default_rand_valid : RandValid default_rand := by
  intro s lo hi hle
  have h : ((s * 1103515245 + 12345) % 2147483648) % (hi - lo + 1) < hi - lo + 1 :=
    Nat.mod_lt _ (by omega)
  constructor
  · exact Nat.le_add_right lo _
  · show lo + ((s * 1103515245 + 12345) % 2147483648) % (hi - lo + 1) ≤ hi
    omega

theorem rand_fst_le {rand : RandFun} (hv : RandValid rand) (s n : Nat) :
    (rand s 0 n).1 ≤ n :=
  (hv s 0 n (Nat.zero_le n)).2

theorem rand00_fst {rand : RandFun} (hv : RandValid rand) (s : Nat) :
    (rand s 0 0).1 = 0 :=
  Nat.le_zero.mp (rand_fst_le hv s 0)

theorem genAux_cons {rand : RandFun} {fuel : Nat} {o : option_t} {buf : String}
    {c : Char} {o2 : option_t} {buf2 : String} {cs : List Char}
    (h : process_character rand fuel o buf c = PRes.ok o2 buf2) :
    generateAux rand fuel o buf (c :: cs) = generateAux rand fuel o2 buf2 cs := by
  simp [generateAux, h]

theorem cc_snd (c : Char) (b : Bool) : (capitalize_and_clear c b).2 = false := by
  cases b <;> rfl

theorem string_ne_data {t : String} (h : t ≠ "") : ∃ c cs, t.data = c :: cs := by
  cases t with
  | mk l =>
    cases l with
    | nil => exact absurd rfl h
    | cons a as => exact ⟨a, as, rfl⟩

theorem getD_of_lt {l : List String} {i : Nat} (h : i < l.length) :
    l.getD i "" = l[i] := by
  rw [List.getD_eq_getElem?_getD, List.getElem?_eq_getElem h]
  rfl

theorem process_token_effects (rand : RandFun) (o : option_t) (buf : String)
    (k : Char) :
    (process_token rand o buf k).2.1.inside_group = o.inside_group ∧
    (process_token rand o buf k).2.1.emit_literal = o.emit_literal ∧
    (process_token rand o buf k).2.1.options = o.options ∧
    (process_token rand o buf k).2.1.current_option = o.current_option := by
  unfold process_token
  by_cases hk : (get_tokens k).isEmpty = true
  · simp [hk]
  · rw [if_neg hk]
    rcases hd : (pick_random_element rand o.seed (get_tokens k)).1.data with _ | ⟨c, rest⟩
    · simp [hd]
    · simp [hd]

theorem process_token_spec {rand : RandFun} (hv : RandValid rand)
    (o : option_t) (buf : String) (k : Char)
    (hne : get_tokens k ≠ [])
    (hAll : ∀ t ∈ get_tokens k, t ≠ "") :
    ∃ t h rest, t ∈ get_tokens k ∧ t.data = h :: rest ∧
      process_token rand o buf k =
        (true,
         { o with seed := (rand o.seed 0 ((get_tokens k).length - 1)).2,
                  capitalize := false },
         buf.push (capitalize_and_clear h o.capitalize).1 ++ String.mk rest) := by
  have hlen : 0 < (get_tokens k).length := List.length_pos.mpr hne
  have hi : (rand o.seed 0 ((get_tokens k).length - 1)).1 < (get_tokens k).length := by
    have := rand_fst_le hv o.seed ((get_tokens k).length - 1)
    omega
  have hmem : (get_tokens k)[(rand o.seed 0 ((get_tokens k).length - 1)).1] ∈
      get_tokens k := List.getElem_mem hi
  obtain ⟨h, rest, hht⟩ := string_ne_data (hAll _ hmem)
  refine ⟨_, h, rest, hmem, hht, ?_⟩
  unfold process_token pick_random_element
  rw [if_neg (by simp [hne])]
  simp only [getD_of_lt hi]
  simp [hht, cc_snd]

set_option maxRecDepth 40000 in
theorem s_tokens_ne : ∀ t ∈ get_tokens 's', t ≠ "" := by decide

set_option maxRecDepth 40000 in
theorem s_tokens_upper : ∀ t ∈ get_tokens 's', upperOk t = true := by decide

set_option maxRecDepth 40000 in
theorem c_tokens_ne : ∀ t ∈ get_tokens 'c', t ≠ "" := by decide

set_option maxRecDepth 40000 in
theorem v_tokens_ne : ∀ t ∈ get_tokens 'v', t ≠ "" := by decide

set_option maxRecDepth 40000 in
theorem c_tokens_len : ∀ t ∈ get_tokens 'c', t.length ≤ 1 := by decide

set_option maxRecDepth 40000 in
theorem v_tokens_len : ∀ t ∈ get_tokens 'v', t.length ≤ 1 := by decide

theorem plain_spec {c : Char} (hc : plain c = true) :
    c ≠ '(' ∧ c ≠ ')' ∧ c ≠ '<' ∧ c ≠ '|' ∧ c ≠ '>' ∧ c ≠ '!' := by
  refine ⟨?_, ?_, ?_, ?_, ?_, ?_⟩ <;> intro h <;> subst h <;> simp [plain] at hc

theorem pc_open {rand : RandFun} {f : Nat} {o : option_t} {buf : String} :
    process_character rand (f + 1) o buf '(' =
      PRes.ok (if o.inside_group then o else { o with emit_literal := true }) buf := rfl

theorem pc_close {rand : RandFun} {f : Nat} {o : option_t} {buf : String} :
    process_character rand (f + 1) o buf ')' =
      PRes.ok (if o.inside_group then o else { o with emit_literal := false }) buf := rfl

theorem pc_lt {rand : RandFun} {f : Nat} {o : option_t} {buf : String} :
    process_character rand (f + 1) o buf '<' =
      PRes.ok { o with inside_group := true, options := [], current_option := "" } buf := rfl

theorem pc_bar {rand : RandFun} {f : Nat} {o : option_t} {buf : String} :
    process_character rand (f + 1) o buf '|' =
      PRes.ok { o with options := o.options ++ [o.current_option],
                       current_option := "" } buf := rfl

theorem pc_bang {rand : RandFun} {f : Nat} {o : option_t} {buf : String} :
    process_character rand (f + 1) o buf '!' =
      PRes.ok { o with capitalize := true } buf := rfl

theorem pc_gt {rand : RandFun} {f : Nat} {o : option_t} {buf : String} :
    process_character rand (f + 1) o buf '>' =
      (if (o.options ++ [o.current_option]).isEmpty then PRes.err
       else
         match runChars (process_character rand f)
             { o with inside_group := false,
                      seed := (rand o.seed 0
                        ((o.options ++ [o.current_option]).length - 1)).2,
                      options := o.options ++ [o.current_option],
                      current_option := "" } buf
             ((o.options ++ [o.current_option]).getD
               (rand o.seed 0
                 ((o.options ++ [o.current_option]).length - 1)).1 "").data with
         | PRes.ok o3 buf3 => PRes.ok { o3 with options := [] } buf3
         | r2 => r2) := rfl

theorem pc_plain {rand : RandFun} {f : Nat} {o : option_t} {buf : String}
    {c : Char} (hc : plain c = true) :
    process_character rand (f + 1) o buf c =
      (if o.inside_group then
        PRes.ok { o with current_option := o.current_option.push c } buf
      else if o.emit_literal then
        PRes.ok { o with capitalize := (capitalize_and_clear c o.capitalize).2 }
          (buf.push (capitalize_and_clear c o.capitalize).1)
      else
        PRes.ok (process_token rand o buf c).2.1
          (process_token rand o buf c).2.2) := by
  obtain ⟨h1, h2, h3, h4, h5, h6⟩ := plain_spec hc
  simp [process_character, h1, h2, h3, h4, h5, h6]

theorem getD_ge {l : List String} {i : Nat} (h : l.length ≤ i) :
    l.getD i "" = "" := by
  rw [List.getD_eq_getElem?_getD, List.getElem?_eq_none h]
  rfl

theorem runChars_plain {rand : RandFun} {f : Nat} :
    ∀ (cs : List Char) (o : option_t) (buf : String),
      (∀ c ∈ cs, plain c = true) → o.inside_group = false →
      ∃ o2 buf2, runChars (process_character rand (f + 1)) o buf cs =
          PRes.ok o2 buf2 ∧
        o2.inside_group = false ∧ o2.options = o.options ∧
        o2.current_option = o.current_option := by
  intro cs
  induction cs with
  | nil => intro o buf _ hg; exact ⟨o, buf, rfl, hg, rfl, rfl⟩
  | cons c cs ih =>
    intro o buf hall hg
    have hc : plain c = true := hall c (List.mem_cons_self c cs)
    have hrest : ∀ x ∈ cs, plain x = true :=
      fun x hx => hall x (List.mem_cons_of_mem c hx)
    have hgne : ¬(o.inside_group = true) := by simp [hg]
    obtain ⟨o1, buf1, h1, hg1, hop1, hcur1⟩ :
        ∃ o1 buf1, process_character rand (f + 1) o buf c = PRes.ok o1 buf1 ∧
          o1.inside_group = false ∧ o1.options = o.options ∧
          o1.current_option = o.current_option := by
      rw [pc_plain hc, if_neg hgne]
      by_cases he : o.emit_literal = true
      · rw [if_pos he]
        exact ⟨_, _, rfl, by simpa using hg, by simp, by simp⟩
      · rw [if_neg he]
        have heff := process_token_effects rand o buf c
        exact ⟨_, _, rfl, by rw [heff.1]; exact hg, heff.2.2.1, heff.2.2.2⟩
    obtain ⟨o2, buf2, hrun, hg2, hop2, hcur2⟩ := ih o1 buf1 hrest hg1
    refine ⟨o2, buf2, ?_, hg2, by rw [hop2, hop1], by rw [hcur2, hcur1]⟩
    show runChars (process_character rand (f + 1)) o buf (c :: cs) = PRes.ok o2 buf2
    simp only [runChars, h1]
    exact hrun

theorem optInv_getD {o : option_t} (hinv : OptInv o) (i : Nat) :
    plainStr ((o.options ++ [o.current_option]).getD i "") = true := by
  by_cases hlt : i < (o.options ++ [o.current_option]).length
  · rw [getD_of_lt hlt]
    have hmem := List.getElem_mem hlt
    rcases List.mem_append.mp hmem with hm | hm
    · exact hinv.1 _ hm
    · rw [List.mem_singleton.mp hm]
      exact hinv.2
  · rw [getD_ge (by omega)]
    rfl

theorem optInv_fields {o o2 : option_t} (hinv : OptInv o)
    (hop : o2.options = o.options) (hcur : o2.current_option = o.current_option) :
    OptInv o2 := by
  constructor
  · rw [hop]
    exact hinv.1
  · show plainStr o2.current_option = true
    rw [hcur]
    exact hinv.2

theorem pc_total {rand : RandFun} {f : Nat} :
    ∀ (o : option_t) (buf : String) (c : Char), OptInv o →
      ∃ o2 buf2, process_character rand (f + 2) o buf c = PRes.ok o2 buf2 ∧
        OptInv o2 := by
  intro o buf c hinv
  by_cases h1 : c = '('
  · subst h1
    rw [pc_open]
    refine ⟨_, buf, rfl, optInv_fields hinv ?_ ?_⟩ <;>
      by_cases hg : o.inside_group = true <;> simp [hg]
  by_cases h2 : c = ')'
  · subst h2
    rw [pc_close]
    refine ⟨_, buf, rfl, optInv_fields hinv ?_ ?_⟩ <;>
      by_cases hg : o.inside_group = true <;> simp [hg]
  by_cases h3 : c = '<'
  · subst h3
    rw [pc_lt]
    exact ⟨_, buf, rfl, by simp, rfl⟩
  by_cases h4 : c = '|'
  · subst h4
    rw [pc_bar]
    refine ⟨_, buf, rfl, ?_, rfl⟩
    intro x hx
    rcases (by simpa using hx : x ∈ o.options ∨ x = o.current_option) with hm | hm
    · exact hinv.1 _ hm
    · rw [hm]
      exact hinv.2
  by_cases h5 : c = '>'
  · subst h5
    rw [pc_gt]
    rw [if_neg (by simp)]
    have hplains : ∀ x ∈ ((o.options ++ [o.current_option]).getD
        (rand o.seed 0 ((o.options ++ [o.current_option]).length - 1)).1 "").data,
        plain x = true := by
      have := optInv_getD hinv
        (rand o.seed 0 ((o.options ++ [o.current_option]).length - 1)).1
      simpa [plainStr, List.all_eq_true] using this
    obtain ⟨o3, buf3, hrun, hg3, hop3, hcur3⟩ :=
      runChars_plain (f := f) _
        { o with inside_group := false,
                 seed := (rand o.seed 0
                   ((o.options ++ [o.current_option]).length - 1)).2,
                 options := o.options ++ [o.current_option],
                 current_option := "" } buf hplains rfl
    rw [hrun]
    refine ⟨_, buf3, rfl, ?_, ?_⟩
    · intro x hx
      simp at hx
    · show plainStr o3.current_option = true
      rw [hcur3]
      rfl
  by_cases h6 : c = '!'
  · subst h6
    rw [pc_bang]
    exact ⟨_, buf, rfl, optInv_fields hinv (by simp) (by simp)⟩
  have hc : plain c = true := by
    simp [plain, h1, h2, h3, h4, h5, h6]
  rw [pc_plain hc]
  by_cases hg : o.inside_group = true
  · rw [if_pos hg]
    refine ⟨_, buf, rfl, by simpa using hinv.1, ?_⟩
    show ((o.current_option.data ++ [c]).all plain) = true
    have h2 : o.current_option.data.all plain = true := hinv.2
    simp [List.all_append, h2, hc]
  · rw [if_neg hg]
    by_cases he : o.emit_literal = true
    · rw [if_pos he]
      exact ⟨_, _, rfl, optInv_fields hinv (by simp) (by simp)⟩
    · rw [if_neg he]
      have heff := process_token_effects rand o buf c
      exact ⟨_, _, rfl, optInv_fields hinv heff.2.2.1 heff.2.2.2⟩

theorem genAux_total {rand : RandFun} {f : Nat} :
    ∀ (cs : List Char) (o : option_t) (buf : String), OptInv o →
      ∃ out, generateAux rand (f + 2) o buf cs = some out := by
  intro cs
  induction cs with
  | nil => intro o buf _; exact ⟨buf, rfl⟩
  | cons c cs ih =>
    intro o buf hinv
    obtain ⟨o2, buf2, hpc, hinv2⟩ := pc_total o buf c hinv
    obtain ⟨out, hout⟩ := ih o2 buf2 hinv2
    exact ⟨out, by rw [genAux_cons hpc]; exact hout⟩

theorem pc_gt_empty (rand : RandFun) (f : Nat) (cap lit grp : Bool) (s : Nat)
    (buf : String) :
    process_character rand (f + 1) (option_t.mk cap lit grp s "" []) buf '>' =
      PRes.ok (option_t.mk cap lit false (rand s 0 0).2 "" []) buf := by
  rw [pc_gt]
  simp [getD_empty_one, runChars, data_empty]

theorem pc_gt_lit {rand : RandFun} (hv : RandValid rand) (f : Nat) (grp : Bool)
    (s : Nat) (buf : String) (c : Char) (hc : plain c = true)
    (hk : get_tokens c = []) :
    process_character rand (f + 2)
        (option_t.mk false false grp s (String.mk [c]) []) buf '>' =
      PRes.ok (option_t.mk false false false (rand s 0 0).2 "" [])
        (buf.push c) := by
  rw [pc_gt]
  simp only [List.nil_append, List.length_singleton, Nat.sub_self]
  rw [rand00_fst hv]
  simp [List.getD, runChars, pc_plain hc, process_token, hk, capitalize_and_clear]

theorem genAux_trailing (rand : RandFun) :
    ∀ (k s : Nat) (buf : String),
      generateAux rand 2 (option_t.mk false false false s "" []) buf
        (List.replicate k '>') = some buf := by
  intro k
  induction k with
  | zero => intro s buf; rfl
  | succ k ih =>
    intro s buf
    rw [List.replicate_succ, genAux_cons (pc_gt_empty rand 1 false false false s buf)]
    exact ih _ _

theorem nest_core {rand : RandFun} (hv : RandValid rand) :
    ∀ (d k s : Nat) (buf : String),
      generateAux rand 2 (option_t.mk false false true s "" []) buf
        (List.replicate d '<' ++ 'a' :: '>' :: List.replicate k '>') =
        some (buf.push 'a') := by
  intro d
  induction d with
  | zero =>
    intro k s buf
    simp only [List.replicate_zero, List.nil_append]
    rw [genAux_cons (show process_character rand 2
        (option_t.mk false false true s "" []) buf 'a' =
        PRes.ok (option_t.mk false false true s "a" []) buf from rfl)]
    rw [genAux_cons (pc_gt_lit hv 0 true s buf 'a' (by decide) (by decide))]
    exact genAux_trailing rand k _ _
  | succ d ih =>
    intro k s buf
    rw [List.replicate_succ, List.cons_append]
    rw [genAux_cons (show process_character rand 2
        (option_t.mk false false true s "" []) buf '<' =
        PRes.ok (option_t.mk false false true s "" []) buf from rfl)]
    exact ih k s buf

theorem nest_eval {rand : RandFun} (hv : RandValid rand) (d s : Nat) :
    generate rand (nestPattern (d + 1)) s = some "a" := by
  show generateAux rand 2 (option_t.mk false false false s "" []) ""
      (nestPattern (d + 1)).data = some "a"
  have hdata : (nestPattern (d + 1)).data =
      '<' :: (List.replicate d '<' ++ 'a' :: '>' :: List.replicate d '>') := by
    show List.replicate (d + 1) '<' ++ 'a' :: List.replicate (d + 1) '>' = _
    simp [List.replicate_succ]
  rw [hdata]
  rw [genAux_cons (show process_character rand 2
      (option_t.mk false false false s "" []) "" '<' =
      PRes.ok (option_t.mk false false true s "" []) "" from rfl)]
  exact nest_core hv d d s ""

theorem pc_token_out {rand : RandFun} (hv : RandValid rand) {f : Nat}
    (o : option_t) (buf : String) (k : Char) (hplain : plain k = true)
    (hg : o.inside_group = false) (he : o.emit_literal = false)
    (hcap : o.capitalize = false)
    (hne : get_tokens k ≠ []) (hAll : ∀ t ∈ get_tokens k, t ≠ "") :
    ∃ t, t ∈ get_tokens k ∧
      process_character rand (f + 1) o buf k =
        PRes.ok { o with seed := (rand o.seed 0 ((get_tokens k).length - 1)).2,
                         capitalize := false }
          (buf ++ t) := by
  obtain ⟨t, h, rest, hmem, hht, heq⟩ := process_token_spec hv o buf k hne hAll
  refine ⟨t, hmem, ?_⟩
  rw [pc_plain hplain, if_neg (by simp [hg]), if_neg (by simp [he]), heq]
  have hcc : (capitalize_and_clear h o.capitalize).1 = h := by
    rw [hcap]
    rfl
  rw [hcc]
  have hteq : t = String.mk (h :: rest) := by
    cases t with
    | mk l =>
      simp only at hht
      rw [hht]
  have hbuf : buf.push h ++ String.mk rest = buf ++ t := by
    rw [hteq]
    show String.mk ((buf.data ++ [h]) ++ rest) = String.mk (buf.data ++ (h :: rest))
    rw [List.append_assoc]
    rfl
  rw [hbuf]

theorem pc_gt_cv {rand : RandFun} (hv : RandValid rand) {f : Nat} (s : Nat)
    (buf : String) :
    ∃ out s4, process_character rand (f + 2)
        (option_t.mk false false true s "" ["c", "v"]) buf '>' =
        PRes.ok (option_t.mk false false false s4 "" []) (buf ++ out) ∧
      (out = "" ∨ out ∈ get_tokens 'c' ∨ out ∈ get_tokens 'v') := by
  rw [pc_gt]
  simp only [List.append_eq, List.cons_append, List.nil_append]
  rw [show ((["c", "v", ""] : List String).length - 1) = 2 from rfl]
  rw [if_neg (by decide)]
  have hi : (rand s 0 2).1 ≤ 2 := rand_fst_le hv s 2
  have hcases : (rand s 0 2).1 = 0 ∨ (rand s 0 2).1 = 1 ∨ (rand s 0 2).1 = 2 := by
    omega
  rcases hcases with hidx | hidx | hidx
  · obtain ⟨t, hmem, heq⟩ := pc_token_out (f := f) hv
        (option_t.mk false false false (rand s 0 2).2 "" ["c", "v", ""])
        buf 'c' (by decide) rfl rfl rfl (by decide) c_tokens_ne
    refine ⟨t, (rand (rand s 0 2).2 0 ((get_tokens 'c').length - 1)).2, ?_,
      Or.inr (Or.inl hmem)⟩
    rw [hidx]
    rw [show (["c", "v", ""] : List String).getD 0 "" = "c" from rfl]
    rw [show ("c" : String).data = ['c'] from rfl]
    simp only [runChars, heq]
  · obtain ⟨t, hmem, heq⟩ := pc_token_out (f := f) hv
        (option_t.mk false false false (rand s 0 2).2 "" ["c", "v", ""])
        buf 'v' (by decide) rfl rfl rfl (by decide) v_tokens_ne
    refine ⟨t, (rand (rand s 0 2).2 0 ((get_tokens 'v').length - 1)).2, ?_,
      Or.inr (Or.inr hmem)⟩
    rw [hidx]
    rw [show (["c", "v", ""] : List String).getD 1 "" = "v" from rfl]
    rw [show ("v" : String).data = ['v'] from rfl]
    simp only [runChars, heq]
  · refine ⟨"", (rand s 0 2).2, ?_, Or.inl rfl⟩
    rw [hidx]
    rw [show (["c", "v", ""] : List String).getD 2 "" = "" from rfl]
    rw [String.append_empty]
    rw [data_empty]
    simp only [runChars]

/-- Claim C1: for every pattern p and seed s, two calls to `generate(p, s)`
with the same pattern and the same seed value return identical output
strings (the token table being the fixed built-in one).  In the embedding
every ingredient of a call (pattern, seed, random source) is an explicit
argument of the pure function `generate`, so the result is determined by
them. -/
theorem generate_deterministic (rand : RandFun) (p : String) (s : Nat)
    (out1 out2 : String) (h1 : generate rand p s = some out1)
    (h2 : generate rand p s = some out2) : out1 = out2 := by
  rw [h1] at h2
  exact Option.some_inj.mp h2

theorem generate_deterministic_witness : ("a" : String) = "a" :=
  generate_deterministic default_rand "(a)" 0 "a" "a" (by rfl) (by rfl)

/-- Claim C2 (amended): `generate` has no error status at all — it returns
only a string.  The malformed patterns are tolerated silently: for every
random source and seed, `"<a)"`, `")"`, `">"` and `"<a"` return the empty
string, and `"(a>"` returns `"a"` (the literal text scanned before the
stray `>`), so output is not withheld on malformed input. -/
theorem malformed_patterns_lenient (rand : RandFun) (s : Nat) :
    generate rand "<a)" s = some "" ∧
    generate rand "(a>" s = some "a" ∧
    generate rand ")" s = some "" ∧
    generate rand ">" s = some "" ∧
    generate rand "<a" s = some "" := by
  refine ⟨by rfl, ?_, by rfl, ?_, by rfl⟩
  · show generateAux rand 2 (option_t.mk false false false s "" []) ""
        ['(', 'a', '>'] = some "a"
    rw [genAux_cons (show process_character rand 2
        (option_t.mk false false false s "" []) "" '(' =
        PRes.ok (option_t.mk false true false s "" []) "" from rfl)]
    rw [genAux_cons (show process_character rand 2
        (option_t.mk false true false s "" []) "" 'a' =
        PRes.ok (option_t.mk false true false s "" []) "a" from rfl)]
    rw [genAux_cons (pc_gt_empty rand 1 false true false s "a")]
    rfl
  · show generateAux rand 2 (option_t.mk false false false s "" []) ""
        ['>'] = some ""
    rw [genAux_cons (pc_gt_empty rand 1 false false false s "")]
    rfl

/-- Claim C2 counterexample: on the malformed pattern `"(a>"` with seed 0,
`generate` returns the non-empty name `"a"`; no `InvalidPattern` status is
reported (the function has no status channel) and the output buffer is
neither cleared nor withheld. -/
theorem malformed_pattern_keeps_output :
    generate default_rand "(a>" 0 = some "a" ∧ ("a" : String) ≠ "" := by
  constructor
  · decide
  · decide

/-- Claim C3 counterexample: no nesting-depth cap exists.  For every
candidate cap there is a deeper-nested pattern (`cap + 1` nested `<` around
`a`) on which `generate` still produces its normal output `"a"` instead of
any `TooDeep` error. -/
theorem no_depth_cap : ¬ c3_claim := by
  intro hclaim
  obtain ⟨cap, h⟩ := hclaim
  exact h (cap + 1) 0 (Nat.lt_succ_self cap) (nest_eval default_rand_valid cap 0)

/-- Claim C3 (amended): there is no depth cap and no `TooDeep` status;
group state is a single `inside_group` flag, so redundant nested `<` are
absorbed: for every valid random source, every seed and every depth
`d + 1`, the pattern of `d + 1` nested `<` around `a` generates `"a"`
normally. -/
theorem nested_patterns_produce_output (rand : RandFun) (hv : RandValid rand)
    (d s : Nat) : generate rand (nestPattern (d + 1)) s = some "a" :=
  nest_eval hv d s

theorem nested_patterns_produce_output_witness :
    generate default_rand (nestPattern 33) 0 = some "a" :=
  nested_patterns_produce_output default_rand default_rand_valid 32 0

/-- Claim C4: every call to `generate` terminates with a result, for every
pattern and seed.  The chosen group alternative that is re-processed is
always a strictly shorter, structural-character-free string, so the
re-processing never recurses further: recursion depth 2 (fuel 2) is never
exhausted and a result is always produced. -/
theorem generate_terminates (rand : RandFun) (pattern : String) (seed : Nat) :
    ∃ out, generate rand pattern seed = some out :=
  genAux_total pattern.data { seed := seed } "" ⟨by simp, rfl⟩

/-- Claim C5 counterexample: processing `<` while already inside a group
clears the outer group's collected alternatives (here `["a"]`) and the
alternative under construction (here `"x"`); concretely, in
`"<a|<b>>"` the outer alternative `a` is discarded and the result is
always `"b"`. -/
theorem nested_group_counterexample :
    process_character default_rand 1
        (option_t.mk false false true 0 "x" ["a"]) "" '<' =
      PRes.ok (option_t.mk false false true 0 "" []) "" ∧
    generate default_rand "<a|<b>>" 0 = some "b" := by
  constructor
  · rfl
  · decide

/-- Claim C5 (amended): opening a `<` group inside an outer group is not a
nesting operation: it resets the collected alternatives and the current
alternative, discarding the outer group's state.  Consequently
`generate("<a|<b>>", s)` returns `"b"` for every valid random source and
seed — the outer alternative `"a"` can never be chosen. -/
theorem inner_group_discards_outer (rand : RandFun) (hv : RandValid rand)
    (s : Nat) : generate rand "<a|<b>>" s = some "b" := by
  show generateAux rand 2 (option_t.mk false false false s "" []) ""
      ['<', 'a', '|', '<', 'b', '>', '>'] = some "b"
  rw [genAux_cons (show process_character rand 2
      (option_t.mk false false false s "" []) "" '<' =
      PRes.ok (option_t.mk false false true s "" []) "" from rfl)]
  rw [genAux_cons (show process_character rand 2
      (option_t.mk false false true s "" []) "" 'a' =
      PRes.ok (option_t.mk false false true s "a" []) "" from rfl)]
  rw [genAux_cons (show process_character rand 2
      (option_t.mk false false true s "a" []) "" '|' =
      PRes.ok (option_t.mk false false true s "" ["a"]) "" from rfl)]
  rw [genAux_cons (show process_character rand 2
      (option_t.mk false false true s "" ["a"]) "" '<' =
      PRes.ok (option_t.mk false false true s "" []) "" from rfl)]
  rw [genAux_cons (show process_character rand 2
      (option_t.mk false false true s "" []) "" 'b' =
      PRes.ok (option_t.mk false false true s "b" []) "" from rfl)]
  rw [genAux_cons (pc_gt_lit hv 0 true s "" 'b' (by decide) (by decide))]
  rw [genAux_cons (pc_gt_empty rand 1 false false false ((rand s 0 0).2)
      (("" : String).push 'b'))]
  rfl

theorem inner_group_discards_outer_witness :
    generate default_rand "<a|<b>>" 7 = some "b" :=
  inner_group_discards_outer default_rand default_rand_valid 7

/-- Claim C6: for every valid random source and seed,
`generate("!(foo)", s)` returns exactly `"Foo"`, and the first character of
`generate("!s", s)` is upper-case, whichever syllable is drawn from the
`'s'` category. -/
theorem capitalization_marker (rand : RandFun) (hv : RandValid rand) (s : Nat) :
    generate rand "!(foo)" s = some "Foo" ∧
    ∃ out c cs, generate rand "!s" s = some out ∧
      out.data = c :: cs ∧ c.isUpper = true := by
  refine ⟨by rfl, ?_⟩
  obtain ⟨t, h, rest, hmem, hht, heq⟩ := process_token_spec hv
      (option_t.mk true false false s "" []) "" 's' (by decide) s_tokens_ne
  have hs : process_character rand 2 (option_t.mk true false false s "" []) "" 's' =
      PRes.ok (option_t.mk false false false
          ((rand s 0 ((get_tokens 's').length - 1)).2) "" [])
        (("" : String).push (capitalize_and_clear h true).1 ++ String.mk rest) := by
    rw [pc_plain (by decide), if_neg (by simp), if_neg (by simp), heq]
  refine ⟨String.mk (h.toUpper :: rest), h.toUpper, rest, ?_, rfl, ?_⟩
  · show generateAux rand 2 (option_t.mk false false false s "" []) ""
        ['!', 's'] = some (String.mk (h.toUpper :: rest))
    rw [genAux_cons (show process_character rand 2
        (option_t.mk false false false s "" []) "" '!' =
        PRes.ok (option_t.mk true false false s "" []) "" from rfl)]
    rw [genAux_cons hs]
    rfl
  · have hupper := s_tokens_upper t hmem
    simp only [upperOk, hht] at hupper
    exact hupper

theorem capitalization_marker_witness :
    generate default_rand "!(foo)" 0 = some "Foo" ∧
    ∃ out c cs, generate default_rand "!s" 0 = some out ∧
      out.data = c :: cs ∧ c.isUpper = true :=
  capitalization_marker default_rand default_rand_valid 0

/-- Claim C7: for every valid random source and seed,
`generate("<c|v|>", s)` returns either a single consonant from the `'c'`
category, a single vowel from the `'v'` category, or the empty string, and
never more than one character. -/
theorem empty_alternative_group (rand : RandFun) (hv : RandValid rand)
    (s : Nat) :
    ∃ out, generate rand "<c|v|>" s = some out ∧
      (out = "" ∨ out ∈ get_tokens 'c' ∨ out ∈ get_tokens 'v') ∧
      out.length ≤ 1 := by
  obtain ⟨out, s4, hpc, hmem⟩ := pc_gt_cv hv (f := 0) s ""
  refine ⟨out, ?_, hmem, ?_⟩
  · show generateAux rand 2 (option_t.mk false false false s "" []) ""
        ['<', 'c', '|', 'v', '|', '>'] = some out
    rw [genAux_cons (show process_character rand 2
        (option_t.mk false false false s "" []) "" '<' =
        PRes.ok (option_t.mk false false true s "" []) "" from rfl)]
    rw [genAux_cons (show process_character rand 2
        (option_t.mk false false true s "" []) "" 'c' =
        PRes.ok (option_t.mk false false true s "c" []) "" from rfl)]
    rw [genAux_cons (show process_character rand 2
        (option_t.mk false false true s "c" []) "" '|' =
        PRes.ok (option_t.mk false false true s "" ["c"]) "" from rfl)]
    rw [genAux_cons (show process_character rand 2
        (option_t.mk false false true s "" ["c"]) "" 'v' =
        PRes.ok (option_t.mk false false true s "v" ["c"]) "" from rfl)]
    rw [genAux_cons (show process_character rand 2
        (option_t.mk false false true s "v" ["c"]) "" '|' =
        PRes.ok (option_t.mk false false true s "" ["c", "v"]) "" from rfl)]
    rw [genAux_cons hpc]
    rfl
  · rcases hmem with h | h | h
    · rw [h]
      decide
    · exact c_tokens_len out h
    · exact v_tokens_len out h

theorem empty_alternative_group_witness :
    ∃ out, generate default_rand "<c|v|>" 0 = some out ∧
      (out = "" ∨ out ∈ get_tokens 'c' ∨ out ∈ get_tokens 'v') ∧
      out.length ≤ 1 :=
  empty_alternative_group default_rand default_rand_valid 0

/-- Claim C8: for every random source and seed, `generate("(hello)", s)`
returns exactly `"hello"`: characters between `(` and `)` at top level are
emitted verbatim, with no category substitution and no dependence on the
seed. -/
theorem literal_passthrough (rand : RandFun) (s : Nat) :
    generate rand "(hello)" s = some "hello" := rfl

/-- Claim C9: for every random source, seed, and non-structural character
key with no registered token category (such as `'x'` in the built-in
table), `generate` on the one-character pattern consisting of that key
returns that key itself as a one-character literal string; this is not an
error. -/
theorem unknown_key_literal (rand : RandFun) (s : Nat) (c : Char)
    (hplain : plain c = true) (hk : get_tokens c = []) :
    generate rand (String.mk [c]) s = some (String.mk [c]) := by
  show generateAux rand 2 (option_t.mk false false false s "" []) "" [c] =
    some (String.mk [c])
  have hpc : process_character rand 2 (option_t.mk false false false s "" []) "" c =
      PRes.ok (option_t.mk false false false s "" []) (("" : String).push c) := by
    rw [pc_plain hplain, if_neg (by simp), if_neg (by simp)]
    unfold process_token
    rw [hk]
    rfl
  rw [genAux_cons hpc]
  rfl

theorem unknown_key_literal_witness :
    generate default_rand (String.mk ['x']) 0 = some (String.mk ['x']) :=
  unknown_key_literal default_rand 0 'x' (by decide) (by decide)

/-- Claim C10: `(` and `)` encountered while inside a `<...>` group are
silently discarded — the state and buffer are left untouched, so they are
neither emitted nor collected into the current alternative; consequently
wrapping alternatives in parentheses has no effect, e.g.
`"<(C!i)|(v!M)>"` generates exactly as `"<C!i|v!M>"` for every random
source and seed. -/
theorem parens_inside_group_ignored :
    (∀ (rand : RandFun) (f : Nat) (o : option_t) (buf : String),
      o.inside_group = true →
      process_character rand (f + 1) o buf '(' = PRes.ok o buf ∧
      process_character rand (f + 1) o buf ')' = PRes.ok o buf) ∧
    ∀ (rand : RandFun) (s : Nat),
      generate rand "<(C!i)|(v!M)>" s = generate rand "<C!i|v!M>" s := by
  constructor
  · intro rand f o buf hg
    constructor
    · rw [pc_open, if_pos hg]
    · rw [pc_close, if_pos hg]
  · intro rand s
    have hL : generate rand "<(C!i)|(v!M)>" s =
        generateAux rand 2 (option_t.mk true false true s "vM" ["Ci"]) "" ['>'] := by
      show generateAux rand 2 (option_t.mk false false false s "" []) ""
          ['<', '(', 'C', '!', 'i', ')', '|', '(', 'v', '!', 'M', ')', '>'] = _
      rw [genAux_cons (show process_character rand 2
          (option_t.mk false false false s "" []) "" '<' =
          PRes.ok (option_t.mk false false true s "" []) "" from rfl)]
      rw [genAux_cons (show process_character rand 2
          (option_t.mk false false true s "" []) "" '(' =
          PRes.ok (option_t.mk false false true s "" []) "" from rfl)]
      rw [genAux_cons (show process_character rand 2
          (option_t.mk false false true s "" []) "" 'C' =
          PRes.ok (option_t.mk false false true s "C" []) "" from rfl)]
      rw [genAux_cons (show process_character rand 2
          (option_t.mk false false true s "C" []) "" '!' =
          PRes.ok (option_t.mk true false true s "C" []) "" from rfl)]
      rw [genAux_cons (show process_character rand 2
          (option_t.mk true false true s "C" []) "" 'i' =
          PRes.ok (option_t.mk true false true s "Ci" []) "" from rfl)]
      rw [genAux_cons (show process_character rand 2
          (option_t.mk true false true s "Ci" []) "" ')' =
          PRes.ok (option_t.mk true false true s "Ci" []) "" from rfl)]
      rw [genAux_cons (show process_character rand 2
          (option_t.mk true false true s "Ci" []) "" '|' =
          PRes.ok (option_t.mk true false true s "" ["Ci"]) "" from rfl)]
      rw [genAux_cons (show process_character rand 2
          (option_t.mk true false true s "" ["Ci"]) "" '(' =
          PRes.ok (option_t.mk true false true s "" ["Ci"]) "" from rfl)]
      rw [genAux_cons (show process_character rand 2
          (option_t.mk true false true s "" ["Ci"]) "" 'v' =
          PRes.ok (option_t.mk true false true s "v" ["Ci"]) "" from rfl)]
      rw [genAux_cons (show process_character rand 2
          (option_t.mk true false true s "v" ["Ci"]) "" '!' =
          PRes.ok (option_t.mk true false true s "v" ["Ci"]) "" from rfl)]
      rw [genAux_cons (show process_character rand 2
          (option_t.mk true false true s "v" ["Ci"]) "" 'M' =
          PRes.ok (option_t.mk true false true s "vM" ["Ci"]) "" from rfl)]
      rw [genAux_cons (show process_character rand 2
          (option_t.mk true false true s "vM" ["Ci"]) "" ')' =
          PRes.ok (option_t.mk true false true s "vM" ["Ci"]) "" from rfl)]
    have hR : generate rand "<C!i|v!M>" s =
        generateAux rand 2 (option_t.mk true false true s "vM" ["Ci"]) "" ['>'] := by
      show generateAux rand 2 (option_t.mk false false false s "" []) ""
          ['<', 'C', '!', 'i', '|', 'v', '!', 'M', '>'] = _
      rw [genAux_cons (show process_character rand 2
          (option_t.mk false false false s "" []) "" '<' =
          PRes.ok (option_t.mk false false true s "" []) "" from rfl)]
      rw [genAux_cons (show process_character rand 2
          (option_t.mk false false true s "" []) "" 'C' =
          PRes.ok (option_t.mk false false true s "C" []) "" from rfl)]
      rw [genAux_cons (show process_character rand 2
          (option_t.mk false false true s "C" []) "" '!' =
          PRes.ok (option_t.mk true false true s "C" []) "" from rfl)]
      rw [genAux_cons (show process_character rand 2
          (option_t.mk true false true s "C" []) "" 'i' =
          PRes.ok (option_t.mk true false true s "Ci" []) "" from rfl)]
      rw [genAux_cons (show process_character rand 2
          (option_t.mk true false true s "Ci" []) "" '|' =
          PRes.ok (option_t.mk true false true s "" ["Ci"]) "" from rfl)]
      rw [genAux_cons (show process_character rand 2
          (option_t.mk true false true s "" ["Ci"]) "" 'v' =
          PRes.ok (option_t.mk true false true s "v" ["Ci"]) "" from rfl)]
      rw [genAux_cons (show process_character rand 2
          (option_t.mk true false true s "v" ["Ci"]) "" '!' =
          PRes.ok (option_t.mk true false true s "v" ["Ci"]) "" from rfl)]
      rw [genAux_cons (show process_character rand 2
          (option_t.mk true false true s "v" ["Ci"]) "" 'M' =
          PRes.ok (option_t.mk true false true s "vM" ["Ci"]) "" from rfl)]
    rw [hL, hR]

theorem parens_inside_group_ignored_witness :
    (process_character default_rand 1 (option_t.mk false false true 0 "" []) "" '(' =
       PRes.ok (option_t.mk false false true 0 "" []) "" ∧
     process_character default_rand 1 (option_t.mk false false true 0 "" []) "" ')' =
       PRes.ok (option_t.mk false false true 0 "" []) "") ∧
    generate default_rand "<(C!i)|(v!M)>" 5 = generate default_rand "<C!i|v!M>" 5 :=
  ⟨parens_inside_group_ignored.1 default_rand 0
      (option_t.mk false false true 0 "" []) "" rfl,
   parens_inside_group_ignored.2 default_rand 5⟩

end namegen
